import Mathlib

/-!
Verification of scar/providers/aws/functioncode.py (deployment package creation).

The module is embedded shallowly: the filesystem is an association list from
path to file content, the per-run working directory is a separate file map,
the produced archive is an optional file map, and calls to the external
collaborators (the Udocker image preparer and the AWS size validators) are
recorded in an explicit call log.  Each method of FunctionPackager becomes a
state-transforming step returning the updated state together with an optional
error; Python exceptions do not roll state back, so a failing step still
returns the state it had mutated so far.
-/

set_option linter.all false

/-- A filesystem fragment: association list from path to file content. -/
abbrev FileMap := List (String × String)

/-- Embedding of FileUtils.join_paths (os.path.join) on relative segments. -/
def joinPaths (a b : String) : String := a ++ "/" ++ b

/-- Python str.endswith, computed on the character list. -/
def strEndsWith (s suffix : String) : Bool := List.isSuffixOf suffix.data s.data

/-- Python str.startswith, computed on the character list. -/
def strStartsWith (s pre : String) : Bool := List.isPrefixOf pre.data s.data

/-- Drop the first n characters of a string, computed on the character list. -/
def strDrop (s : String) (n : Nat) : String := String.mk (s.data.drop n)

/-- Look a path up in a file map (first match wins). -/
def lookupFile : FileMap → String → Option String
  | [], _ => none
  | e :: rest, p => if e.1 = p then some e.2 else lookupFile rest p

/-- Write a file into a file map, overwriting any previous entry at that path. -/
def writeFile (m : FileMap) (p c : String) : FileMap :=
  (p, c) :: m.filter (fun e => e.1 != p)

/-- Write a list of files in order. -/
def writeAll (m : FileMap) : FileMap → FileMap
  | [] => m
  | e :: rest => writeAll (writeFile m e.1 e.2) rest

/-- Embedding of FileUtils.copy_dir: the entries of the tree rooted at src,
with their paths made relative to src (the tree is flattened into the
destination, not nested under the source directory name). -/
def copyDirEntries (fs : FileMap) (src : String) : FileMap :=
  (fs.filter (fun e => strStartsWith e.1 (src ++ "/"))).map
    (fun e => (strDrop e.1 (src ++ "/").length, e.2))

/-- Set a key in an environment Variables map. -/
def setEnvVar (env : List (String × String)) (k v : String) : List (String × String) :=
  (k, v) :: env.filter (fun e => e.1 != k)

/-- Total size of a directory: the sum of the sizes of its files. -/
def dirSize (m : FileMap) : Nat := (m.map (fun e => e.2.length)).sum

/-- The lambda-function section of the AWS properties object.  Attributes the
Python code probes with hasattr are Option fields; environment holds the
Variables sub-map that the code writes INIT_SCRIPT_PATH / EXTRA_PAYLOAD into. -/
structure Lambdaf where
  name : String
  image : Option String
  image_file : Option String
  init_script : Option String
  extra_payload : Option String
  zip_file_path : String
  max_payload_size : Nat
  max_s3_payload_size : Nat
  environment : List (String × String)
  deriving Repr, DecidableEq

/-- The s3 section of the AWS properties object. -/
structure S3Props where
  deployment_bucket : Option String
  deriving Repr, DecidableEq

/-- The aws properties object handed to FunctionPackager. -/
structure AwsProperties where
  lambdaf : Lambdaf
  s3 : Option S3Props
  config_path : Option String
  deriving Repr, DecidableEq

/-- Errors a packaging step can raise. copyNotFound embeds the
FileNotFoundError raised by FileUtils.copy_file on a missing source path;
typeError embeds the TypeError raised by subscripting a bound method;
sizeExceeded embeds the validator error (actual size, limit). -/
inductive PkgError where
  | copyNotFound (path : String)
  | typeError (msg : String)
  | sizeExceeded (actual limit : Nat)
  deriving Repr, DecidableEq

/-- Calls made to the external collaborators, recorded for the theorems:
the two Udocker capabilities and the size validator (with the directory path
and the byte ceiling it was handed). -/
inductive ExtCall where
  | downloadRemoteImage (ref : String)
  | prepareLocalImage (path : String)
  | validateSize (path : String) (limit : Nat)
  deriving Repr, DecidableEq

/-- The state a packaging run acts on: the external filesystem, the per-run
working directory (contents, existence flag and its path name), the archive
at aws.lambdaf.zip_file_path (none when no file exists there), the collaborator
call log, and the mutable AWS properties object. -/
structure PkgState where
  fs : FileMap
  workdir : FileMap
  workdirExists : Bool
  workdirPath : String
  artifact : Option FileMap
  calls : List ExtCall
  aws : AwsProperties
  deriving Repr, DecidableEq

/-- A step returns the state it reached together with an optional error; a
raising step still keeps the mutations it performed before raising. -/
abbrev StepResult := PkgState × Option PkgError

/-- Embedding of hasattr(self.aws, "s3") and hasattr(self.aws.s3, "deployment_bucket"). -/
def hasDeploymentBucket (aws : AwsProperties) : Bool :=
  match aws.s3 with
  | some s3p => s3p.deployment_bucket.isSome
  | none => false

/-- Embedding of FunctionPackager._clean_tmp_folders: FileUtils.delete_file on
the configured zip path (idempotent on a missing file). -/
def clean_tmp_folders (s : PkgState) : StepResult :=
  ({ s with artifact := none }, none)

/-- Embedding of _download_handler_code and _download_hander_file: download the
release archive, scan its name list for the first entry ending in
"function_handler.py", extract it to the OS temp dir and copy it to
<workdir>/<functionName>.py.  When no entry matches, file_path keeps its
initial value "" and FileUtils.copy_file("") raises FileNotFoundError, embedded
as copyNotFound "". -/
def download_hander_file (zip : FileMap) (s : PkgState) : StepResult :=
  match zip.find? (fun e => strEndsWith e.1 "function_handler.py") with
  | some e =>
      ({ s with workdir := writeFile s.workdir (s.aws.lambdaf.name ++ ".py") e.2 }, none)
  | none => (s, some (PkgError.copyNotFound ""))

/-- Modelled from the spec: Udocker.download_udocker_image is not under src/;
per the spec it is an opaque collaborator capability that writes the cached
remote image into the working directory. -/
def download_udocker_image (ref : String) (wd : FileMap) : FileMap :=
  writeFile wd "udocker-remote-image" ref

/-- Modelled from the spec: Udocker.prepare_udocker_image is not under src/;
per the spec it prepares the local image archive found at the given path into
the working directory, failing on a missing source path. -/
def prepare_udocker_image (fs : FileMap) (path : String) (wd : FileMap) :
    Except PkgError FileMap :=
  match lookupFile fs path with
  | some c => Except.ok (writeFile wd "udocker-local-image" c)
  | none => Except.error (PkgError.copyNotFound path)

/-- Embedding of _manage_udocker_images: first, if the image attribute and the
s3 deployment bucket are both present, invoke the remote download capability;
independently, if image_file is present, resolve it against config_path when
that is set (reassigning the image_file attribute in place) and invoke the
local preparation capability.  The first branch does not touch the attributes
the second branch reads. -/
def manage_udocker_images (s : PkgState) : StepResult :=
  let s1 :=
    match s.aws.lambdaf.image with
    | some ref =>
        if hasDeploymentBucket s.aws then
          { s with workdir := download_udocker_image ref s.workdir,
                   calls := s.calls ++ [ExtCall.downloadRemoteImage ref] }
        else s
    | none => s
  match s.aws.lambdaf.image_file with
  | some f =>
      let resolved :=
        match s.aws.config_path with
        | some cp => joinPaths cp f
        | none => f
      let s2 :=
        match s.aws.config_path with
        | some _ =>
            { s1 with aws := { s1.aws with
                lambdaf := { s1.aws.lambdaf with image_file := some resolved } } }
        | none => s1
      let s2b := { s2 with calls := s2.calls ++ [ExtCall.prepareLocalImage resolved] }
      match prepare_udocker_image s2b.fs resolved s2b.workdir with
      | Except.ok wd => ({ s2b with workdir := wd }, none)
      | Except.error e => (s2b, some e)
  | none => (s1, none)

/-- Embedding of _add_init_script: when init_script is present, resolve it
against config_path when that is set (reassigning the attribute in place),
copy the file into the working directory as init_script.sh, then execute
line 99, which subscripts the bound dict method environment.get and therefore
raises TypeError before any assignment to the environment happens. -/
def add_init_script (s : PkgState) : StepResult :=
  match s.aws.lambdaf.init_script with
  | none => (s, none)
  | some isc =>
      let resolved :=
        match s.aws.config_path with
        | some cp => joinPaths cp isc
        | none => isc
      let s1 :=
        match s.aws.config_path with
        | some _ =>
            { s with aws := { s.aws with
                lambdaf := { s.aws.lambdaf with init_script := some resolved } } }
        | none => s
      match lookupFile s1.fs resolved with
      | none => (s1, some (PkgError.copyNotFound resolved))
      | some content =>
          let s2 := { s1 with workdir := writeFile s1.workdir "init_script.sh" content }
          (s2, some (PkgError.typeError "environment.get is not subscriptable"))

/-- Embedding of _add_extra_payload: when extra_payload is present, copy the
directory tree into the working directory and set EXTRA_PAYLOAD=/var/task in
the environment Variables map (this method subscripts the environment
correctly). -/
def add_extra_payload (s : PkgState) : StepResult :=
  match s.aws.lambdaf.extra_payload with
  | none => (s, none)
  | some ep =>
      ({ s with
          workdir := writeAll s.workdir (copyDirEntries s.fs ep),
          aws := { s.aws with lambdaf := { s.aws.lambdaf with
            environment := setEnvVar s.aws.lambdaf.environment "EXTRA_PAYLOAD" "/var/task" } } },
       none)

/-- Embedding of _zip_scar_folder: FileUtils.zip_folder writes the working
directory contents as a fresh archive at aws.lambdaf.zip_file_path. -/
def zip_scar_folder (s : PkgState) : StepResult :=
  ({ s with artifact := some s.workdir }, none)

/-- Embedding of _check_code_size.  The two AWSValidator functions are not
under src/ and are modelled from the spec: the sum of the file sizes under the
directory must not exceed the ceiling.  The branch on the s3 deployment bucket
selects which ceiling is handed to the validator, and the directory handed to
it is the working directory path. -/
def check_code_size (s : PkgState) : StepResult :=
  if hasDeploymentBucket s.aws then
    let s1 := { s with calls :=
      s.calls ++ [ExtCall.validateSize s.workdirPath s.aws.lambdaf.max_s3_payload_size] }
    if dirSize s.workdir ≤ s.aws.lambdaf.max_s3_payload_size then (s1, none)
    else (s1, some (PkgError.sizeExceeded (dirSize s.workdir) s.aws.lambdaf.max_s3_payload_size))
  else
    let s1 := { s with calls :=
      s.calls ++ [ExtCall.validateSize s.workdirPath s.aws.lambdaf.max_payload_size] }
    if dirSize s.workdir ≤ s.aws.lambdaf.max_payload_size then (s1, none)
    else (s1, some (PkgError.sizeExceeded (dirSize s.workdir) s.aws.lambdaf.max_payload_size))

/-- The six steps of create_zip after the initial clean, in source order. -/
def restSteps (zip : FileMap) : List (String × (PkgState → StepResult)) :=
  [("download_hander_file", download_hander_file zip),
   ("manage_udocker_images", manage_udocker_images),
   ("add_init_script", add_init_script),
   ("add_extra_payload", add_extra_payload),
   ("zip_scar_folder", zip_scar_folder),
   ("check_code_size", check_code_size)]

/-- The steps of create_zip, in source order, each with its name. -/
def packagingSteps (zip : FileMap) : List (String × (PkgState → StepResult)) :=
  ("clean_tmp_folders", clean_tmp_folders) :: restSteps zip

/-- Run a list of named steps in order, short-circuiting on the first error:
returns the names of the steps that were started, the final state and the
optional error.  A Python exception aborts the remaining statements of
create_zip; no step is retried. -/
def runSteps : List (String × (PkgState → StepResult)) → PkgState → List String × StepResult
  | [], s => ([], (s, none))
  | st :: rest, s =>
      match st.2 s with
      | (s1, none) =>
          let r := runSteps rest s1
          (st.1 :: r.1, r.2)
      | (s1, some e) => ([st.1], (s1, some e))

/-- Embedding of FunctionPackager.__init__: FileUtils.create_tmp_dir creates a
fresh, empty, exclusively owned working directory. -/
def initPackager (s : PkgState) : PkgState :=
  { s with workdir := [], workdirExists := true, calls := [] }

/-- One full run of Build: construct the packager and run create_zip. -/
def runBuild (zip : FileMap) (s : PkgState) : List String × StepResult :=
  runSteps (packagingSteps zip) (initPackager s)

/-- The state and error outcome of one run of Build. -/
def build (zip : FileMap) (s : PkgState) : StepResult := (runBuild zip s).2

/-- The names of the steps a run of Build started, in execution order. -/
def buildExecuted (zip : FileMap) (s : PkgState) : List String := (runBuild zip s).1

/-- The step names of create_zip in source order. -/
def stepNames : List String :=
  ["clean_tmp_folders", "download_hander_file", "manage_udocker_images",
   "add_init_script", "add_extra_payload", "zip_scar_folder", "check_code_size"]

/-- A supervisor release archive holding the handler file. -/
def supervisorZip : FileMap := [("faas-supervisor-1.0/function_handler.py", "H")]

/-- A release archive with no entry ending in the handler marker. -/
def zipNoHandler : FileMap := [("faas-supervisor-1.0/README.md", "readme")]

/-- A minimal lambda configuration: no optional attribute set. -/
def baseLambdaf : Lambdaf :=
  { name := "f", image := none, image_file := none, init_script := none,
    extra_payload := none, zip_file_path := "out.zip",
    max_payload_size := 1000, max_s3_payload_size := 2000, environment := [] }

/-- A minimal initial state for a Build run. -/
def baseState : PkgState :=
  { fs := [], workdir := [], workdirExists := false, workdirPath := "wd",
    artifact := none, calls := [],
    aws := { lambdaf := baseLambdaf, s3 := none, config_path := none } }

/-- A state whose configuration sets an init script (present on disk). -/
def initScriptState : PkgState :=
  { baseState with
    fs := [("init.sh", "echo hi")],
    aws := { baseState.aws with
      lambdaf := { baseLambdaf with init_script := some "init.sh" } } }

/-- A state whose configuration sets a base config directory and a local
image-archive path (present on disk at the resolved location). -/
def imageFileState : PkgState :=
  { baseState with
    fs := [("cfg/img.tar", "IMG")],
    aws := { baseState.aws with
      config_path := some "cfg",
      lambdaf := { baseLambdaf with image_file := some "img.tar" } } }

/-- A state whose configuration sets a base config directory but no local
image archive and no init script. -/
def configDirState : PkgState :=
  { baseState with aws := { baseState.aws with config_path := some "cfg" } }

/-- A state whose configuration sets a tiny direct-upload ceiling so that the
size check fails after the archive is written. -/
def tinyLimitState : PkgState :=
  { baseState with
    aws := { baseState.aws with
      lambdaf := { baseLambdaf with max_payload_size := 0 } } }

/-- A state with a deployment bucket whose working directory size lies
strictly between the two ceilings. -/
def betweenCeilingsState : PkgState :=
  { baseState with
    workdir := [("f.py", "xx")],
    aws := { baseState.aws with
      s3 := some { deployment_bucket := some "b" },
      lambdaf := { baseLambdaf with max_payload_size := 0, max_s3_payload_size := 10 } } }

/-- Decide whether an optional error is the size-exceeded validator error. -/
def isSizeErr : Option PkgError → Bool
  | some (PkgError.sizeExceeded _ _) => true
  | _ => false

/-- The four steps between the initial clean and the final zip and size
check, in source order. -/
def frontSteps (zip : FileMap) : List (String × (PkgState → StepResult)) :=
  [("download_hander_file", download_hander_file zip),
   ("manage_udocker_images", manage_udocker_images),
   ("add_init_script", add_init_script),
   ("add_extra_payload", add_extra_payload)]

/-- State components no packaging step changes: the external filesystem, the
working-directory path name, and every configuration field other than the
environment map, the image_file attribute and the init_script attribute;
those two path attributes are also unchanged whenever no base config
directory is set. -/
def framePreserved (s0 s1 : PkgState) : Prop :=
  s1.fs = s0.fs ∧ s1.workdirPath = s0.workdirPath ∧
  s1.aws.s3 = s0.aws.s3 ∧ s1.aws.config_path = s0.aws.config_path ∧
  s1.aws.lambdaf.name = s0.aws.lambdaf.name ∧
  s1.aws.lambdaf.image = s0.aws.lambdaf.image ∧
  s1.aws.lambdaf.extra_payload = s0.aws.lambdaf.extra_payload ∧
  s1.aws.lambdaf.zip_file_path = s0.aws.lambdaf.zip_file_path ∧
  s1.aws.lambdaf.max_payload_size = s0.aws.lambdaf.max_payload_size ∧
  s1.aws.lambdaf.max_s3_payload_size = s0.aws.lambdaf.max_s3_payload_size ∧
  (s0.aws.config_path = none →
    s1.aws.lambdaf.image_file = s0.aws.lambdaf.image_file ∧
    s1.aws.lambdaf.init_script = s0.aws.lambdaf.init_script)

/-- Per-step guarantee: the frame is preserved, the working-directory
existence flag is untouched, and every size-validator call a step appends
hands the validator the current working-directory path. -/
def stepOK (s0 s1 : PkgState) : Prop :=
  framePreserved s0 s1 ∧ s1.workdirExists = s0.workdirExists ∧
  ∀ p l, ExtCall.validateSize p l ∈ s1.calls →
    ExtCall.validateSize p l ∈ s0.calls ∨ p = s0.workdirPath

/-- A step that neither touches the archive at the output path nor raises the
size-exceeded error. -/
def ArtifactSafe (f : PkgState → StepResult) : Prop :=
  ∀ s, (f s).1.artifact = s.artifact ∧ isSizeErr (f s).2 = false

/-- Erase the environment map of a state; two states with the same scrub
agree on everything except the environment map. -/
def scrub (s : PkgState) : PkgState :=
  { s with aws := { s.aws with lambdaf := { s.aws.lambdaf with environment := [] } } }

/-- A step whose result state (up to the environment map) and error depend
only on the input state up to the environment map. -/
def ScrubCommutes (f : PkgState → StepResult) : Prop :=
  ∀ s, scrub ((f (scrub s)).1) = scrub ((f s).1) ∧ (f (scrub s)).2 = (f s).2

/-- Helper: the step names a run starts form a take-prefix of the full name
list, and a run that ends without an error started every step. -/
theorem runSteps_names_take (steps : List (String × (PkgState → StepResult))) (s : PkgState) :
    (∃ n, (runSteps steps s).1 = (steps.map Prod.fst).take n) ∧
      ((runSteps steps s).2.2 = none → (runSteps steps s).1 = steps.map Prod.fst) := by
  induction steps generalizing s with
  | nil => exact ⟨⟨0, rfl⟩, fun _ => rfl⟩
  | cons st rest ih =>
      rcases hst : st.2 s with ⟨s1, e⟩
      cases e with
      | none =>
          obtain ⟨⟨n, hn⟩, hall⟩ := ih s1
          constructor
          · refine ⟨n + 1, ?_⟩
            simp only [runSteps, hst, List.map_cons, List.take_succ_cons]
            exact congrArg (st.1 :: ·) hn
          · intro h
            simp only [runSteps, hst] at h ⊢
            exact congrArg (st.1 :: ·) (hall h)
      | some err =>
          constructor
          · refine ⟨1, ?_⟩
            simp [runSteps, hst]
          · intro h
            simp [runSteps, hst] at h

/-- Claim C4: Build executes its steps strictly in the order clean, fetch
handler, prepare images, add init script, add extra payload, zip, size check;
the list of started steps is always an order-preserving prefix of that list,
and once a step fails no later step is started; a run that returns no error
started all seven steps. -/
theorem c4_step_order (zip : FileMap) (s : PkgState) :
    (∃ n, buildExecuted zip s = stepNames.take n) ∧
      ((build zip s).2 = none → buildExecuted zip s = stepNames) := by
  have h := runSteps_names_take (packagingSteps zip) (initPackager s)
  have hnames : (packagingSteps zip).map Prod.fst = stepNames := rfl
  rw [hnames] at h
  exact h

/-- Witness for C4: a concrete run with no error starts all seven steps. -/
theorem c4_step_order_witness :
    buildExecuted supervisorZip baseState = stepNames :=
  (c4_step_order supervisorZip baseState).2 (by decide)

/-- Claim C5: the size check hands the validator the bucket-mediated ceiling
exactly when the configuration has an s3 section with a deployment bucket set,
and the direct-upload ceiling otherwise; the check passes exactly when the
size is within the selected ceiling, so a size strictly between the two
ceilings passes exactly when the bucket-mediated path is configured. -/
theorem c5_ceiling_selection (s : PkgState) :
    (check_code_size s).1.calls =
        s.calls ++ [ExtCall.validateSize s.workdirPath
          (if hasDeploymentBucket s.aws then s.aws.lambdaf.max_s3_payload_size
           else s.aws.lambdaf.max_payload_size)] ∧
    ((check_code_size s).2 = none ↔
        dirSize s.workdir ≤
          (if hasDeploymentBucket s.aws then s.aws.lambdaf.max_s3_payload_size
           else s.aws.lambdaf.max_payload_size)) ∧
    (s.aws.lambdaf.max_payload_size < dirSize s.workdir →
      dirSize s.workdir ≤ s.aws.lambdaf.max_s3_payload_size →
      ((check_code_size s).2 = none ↔ hasDeploymentBucket s.aws = true)) := by
  unfold check_code_size
  cases hb : hasDeploymentBucket s.aws
  · by_cases hle : dirSize s.workdir ≤ s.aws.lambdaf.max_payload_size
    · refine ⟨by simp [hle], by simp [hle], fun hlt _ => ?_⟩
      omega
    · refine ⟨by simp [hle], by simp [hle], fun hlt _ => by simp [hle]⟩
  · by_cases hle : dirSize s.workdir ≤ s.aws.lambdaf.max_s3_payload_size
    · exact ⟨by simp [hle], by simp [hle], fun _ hle2 => by simp [hle]⟩
    · exact ⟨by simp [hle], by simp [hle], fun _ hle2 => absurd hle2 hle⟩

/-- Witness for C5: with a deployment bucket configured and a working
directory whose size lies strictly between the two ceilings, the check
passes. -/
theorem c5_ceiling_selection_witness :
    (check_code_size betweenCeilingsState).2 = none ↔
      hasDeploymentBucket betweenCeilingsState.aws = true :=
  (c5_ceiling_selection betweenCeilingsState).2.2 (by decide) (by decide)

/-- Claim C6: in the image-preparation step the remote download is invoked
exactly when an image reference is present and a deployment bucket is
configured, and the local preparation is invoked exactly when a local
image-archive path is configured, with the path resolved against the base
config directory when one is set; the two conditions are independent, so the
recorded collaborator calls of the step are exactly the concatenation of the
two optional invocations. -/
theorem c6_image_branches (s : PkgState) :
    (manage_udocker_images s).1.calls =
      s.calls
        ++ (match s.aws.lambdaf.image with
            | some ref =>
                if hasDeploymentBucket s.aws then [ExtCall.downloadRemoteImage ref] else []
            | none => [])
        ++ (match s.aws.lambdaf.image_file with
            | some f =>
                [ExtCall.prepareLocalImage
                  (match s.aws.config_path with
                   | some cp => joinPaths cp f
                   | none => f)]
            | none => []) := by
  unfold manage_udocker_images
  rcases himg : s.aws.lambdaf.image with _ | ref <;>
  rcases hif : s.aws.lambdaf.image_file with _ | f <;>
  rcases hcp : s.aws.config_path with _ | cp <;>
  cases hb : hasDeploymentBucket s.aws <;>
  simp only [himg, hif, hcp, hb] <;>
  (try split) <;>
  simp

/-- Witness for C6: on a configuration with a base config directory and a
local image archive, the step records exactly the resolved local-preparation
call. -/
theorem c6_image_branches_witness :
    (manage_udocker_images imageFileState).1.calls =
      [ExtCall.prepareLocalImage (joinPaths "cfg" "img.tar")] :=
  c6_image_branches imageFileState

/-- Claim C7: on a release archive none of whose entries ends in the handler
marker, the fetch step scans the whole archive, fails with the not-found error
raised on copying the still-empty source path, and returns the state it was
given unchanged, so the destination directory is untouched and no
functionName.py file is created. -/
theorem c7_fetch_not_found (zip : FileMap) (s : PkgState)
    (h : ∀ e ∈ zip, strEndsWith e.1 "function_handler.py" = false) :
    download_hander_file zip s = (s, some (PkgError.copyNotFound "")) := by
  unfold download_hander_file
  have hfind : zip.find? (fun e => strEndsWith e.1 "function_handler.py") = none := by
    rw [List.find?_eq_none]
    intro x hx
    simp [h x hx]
  rw [hfind]

/-- Witness for C7: a concrete archive with no matching entry makes the fetch
step fail with the not-found error and leave the state unchanged. -/
theorem c7_fetch_not_found_witness :
    download_hander_file zipNoHandler baseState =
      (baseState, some (PkgError.copyNotFound "")) :=
  c7_fetch_not_found zipNoHandler baseState (by decide)

/-- Claim C1 is a code bug: on a configuration with an init script, Build
copies the script into the working directory as init_script.sh, but line 99
subscripts the bound dict method environment.get, so the run aborts with a
TypeError and INIT_SCRIPT_PATH is never added to the environment map. -/
theorem c1_init_script_type_error :
    (build supervisorZip initScriptState).2 =
        some (PkgError.typeError "environment.get is not subscriptable") ∧
      lookupFile (build supervisorZip initScriptState).1.workdir "init_script.sh" =
        some "echo hi" ∧
      lookupFile (build supervisorZip initScriptState).1.aws.lambdaf.environment
        "INIT_SCRIPT_PATH" = none := by
  decide

/-- Counterexample to claim C2: a run of Build that succeeds, with no caller
request to preserve anything, still leaves the per-run working directory in
place at exit. -/
theorem c2_counterexample :
    (build supervisorZip baseState).2 = none ∧
      (build supervisorZip baseState).1.workdirExists = true := by
  decide

/-- Counterexample to claim C3: a successful run of Build rewrites the
image_file configuration field in place when a base config directory is set,
so a field other than the environment map changes. -/
theorem c3_counterexample :
    imageFileState.aws.lambdaf.image_file = some "img.tar" ∧
      (build supervisorZip imageFileState).2 = none ∧
      (build supervisorZip imageFileState).1.aws.lambdaf.image_file =
        some "cfg/img.tar" ∧
      (build supervisorZip imageFileState).1.aws.lambdaf.image_file ≠
        imageFileState.aws.lambdaf.image_file := by
  decide

/-- Counterexample to claim C8: when the size check fails, Build returns the
error while the fully written archive is still present at the output path. -/
theorem c8_counterexample :
    (build supervisorZip tinyLimitState).2 = some (PkgError.sizeExceeded 1 0) ∧
      (build supervisorZip tinyLimitState).1.artifact = some [("f.py", "H")] := by
  decide

/-- Counterexample to claim C9: a first run of Build succeeds on a
configuration with a base config directory and a local image archive, but a
second run with the same configuration fails, because the first run rewrote
the image_file field in place and the second run resolves it against the
config directory again. -/
theorem c9_counterexample :
    (build supervisorZip imageFileState).2 = none ∧
      (build supervisorZip (build supervisorZip imageFileState).1).2 =
        some (PkgError.copyNotFound "cfg/cfg/img.tar") := by
  decide

/-- framePreserved is reflexive. -/
theorem framePreserved_refl (s : PkgState) : framePreserved s s :=
  ⟨rfl, rfl, rfl, rfl, rfl, rfl, rfl, rfl, rfl, rfl, fun _ => ⟨rfl, rfl⟩⟩

/-- stepOK is reflexive. -/
theorem stepOK_refl (s : PkgState) : stepOK s s :=
  ⟨framePreserved_refl s, rfl, fun _ _ hp => Or.inl hp⟩

/-- stepOK is transitive. -/
theorem stepOK_trans {a b c : PkgState} (h1 : stepOK a b) (h2 : stepOK b c) : stepOK a c := by
  obtain ⟨⟨f1, w1, s31, cp1, n1, i1, e1, z1, m1, ms1, cond1⟩, we1, hv1⟩ := h1
  obtain ⟨⟨f2, w2, s32, cp2, n2, i2, e2, z2, m2, ms2, cond2⟩, we2, hv2⟩ := h2
  refine ⟨⟨f2.trans f1, w2.trans w1, s32.trans s31, cp2.trans cp1, n2.trans n1, i2.trans i1,
    e2.trans e1, z2.trans z1, m2.trans m1, ms2.trans ms1, ?_⟩, we2.trans we1, ?_⟩
  · intro h
    obtain ⟨x1, y1⟩ := cond1 h
    obtain ⟨x2, y2⟩ := cond2 (cp1.trans h)
    exact ⟨x2.trans x1, y2.trans y1⟩
  · intro p l hp
    rcases hv2 p l hp with h | h
    · exact hv1 p l h
    · exact Or.inr (h.trans w1)

/-- Appending collaborator calls whose size-validator entries all carry the
given path keeps the call-log guarantee. -/
theorem calls_append_ok {base extra : List ExtCall} {wp : String}
    (hextra : ∀ p l, ExtCall.validateSize p l ∈ extra → p = wp) :
    ∀ p l, ExtCall.validateSize p l ∈ base ++ extra →
      ExtCall.validateSize p l ∈ base ∨ p = wp := by
  intro p l hp
  rcases List.mem_append.mp hp with h | h
  · exact Or.inl h
  · exact Or.inr (hextra p l h)

/-- The clean step satisfies the per-step guarantee. -/
theorem clean_stepOK (s : PkgState) : stepOK s (clean_tmp_folders s).1 :=
  ⟨⟨rfl, rfl, rfl, rfl, rfl, rfl, rfl, rfl, rfl, rfl, fun _ => ⟨rfl, rfl⟩⟩, rfl,
    fun _ _ hp => Or.inl hp⟩

/-- The handler-fetch step satisfies the per-step guarantee. -/
theorem download_stepOK (zip : FileMap) (s : PkgState) :
    stepOK s (download_hander_file zip s).1 := by
  unfold download_hander_file
  split <;>
    exact ⟨⟨rfl, rfl, rfl, rfl, rfl, rfl, rfl, rfl, rfl, rfl, fun _ => ⟨rfl, rfl⟩⟩, rfl,
      fun _ _ hp => Or.inl hp⟩

/-- The image-preparation step satisfies the per-step guarantee. -/
theorem manage_stepOK (s : PkgState) : stepOK s (manage_udocker_images s).1 := by
  obtain ⟨fs, wd, we, wp, art, cs, ⟨⟨nm, img, imgf, isc, ep, zp, mp, msp, env⟩, s3v, cp⟩⟩ := s
  unfold manage_udocker_images
  rcases s3v with _ | ⟨db⟩ <;> (try rcases db with _ | b) <;>
  rcases img with _ | ref <;>
  rcases imgf with _ | f <;>
  rcases cp with _ | cp <;>
  (try simp [hasDeploymentBucket]) <;>
  (try split) <;>
  refine ⟨⟨rfl, rfl, rfl, rfl, rfl, rfl, rfl, rfl, rfl, rfl, ?_⟩, rfl, ?_⟩ <;>
  first
    | exact fun _ => ⟨rfl, rfl⟩
    | exact fun h => Option.noConfusion h
    | exact fun _ _ hp => Or.inl hp
    | exact calls_append_ok (by simp)

/-- The init-script step satisfies the per-step guarantee. -/
theorem add_init_stepOK (s : PkgState) : stepOK s (add_init_script s).1 := by
  obtain ⟨fs, wd, we, wp, art, cs, ⟨⟨nm, img, imgf, isc, ep, zp, mp, msp, env⟩, s3v, cp⟩⟩ := s
  unfold add_init_script
  rcases isc with _ | isc <;>
  rcases cp with _ | cp <;>
  (try dsimp only) <;>
  (try split) <;>
  refine ⟨⟨rfl, rfl, rfl, rfl, rfl, rfl, rfl, rfl, rfl, rfl, ?_⟩, rfl,
    fun _ _ hp => Or.inl hp⟩ <;>
  first
    | exact fun _ => ⟨rfl, rfl⟩
    | exact fun h => Option.noConfusion h

/-- The extra-payload step satisfies the per-step guarantee. -/
theorem add_payload_stepOK (s : PkgState) : stepOK s (add_extra_payload s).1 := by
  obtain ⟨fs, wd, we, wp, art, cs, ⟨⟨nm, img, imgf, isc, ep, zp, mp, msp, env⟩, s3v, cp⟩⟩ := s
  unfold add_extra_payload
  rcases ep with _ | ep <;>
  exact ⟨⟨rfl, rfl, rfl, rfl, rfl, rfl, rfl, rfl, rfl, rfl, fun _ => ⟨rfl, rfl⟩⟩, rfl,
    fun _ _ hp => Or.inl hp⟩

/-- The zip step satisfies the per-step guarantee. -/
theorem zip_stepOK (s : PkgState) : stepOK s (zip_scar_folder s).1 :=
  ⟨⟨rfl, rfl, rfl, rfl, rfl, rfl, rfl, rfl, rfl, rfl, fun _ => ⟨rfl, rfl⟩⟩, rfl,
    fun _ _ hp => Or.inl hp⟩

/-- The size-check step satisfies the per-step guarantee. -/
theorem check_stepOK (s : PkgState) : stepOK s (check_code_size s).1 := by
  obtain ⟨fs, wd, we, wp, art, cs, ⟨⟨nm, img, imgf, isc, ep, zp, mp, msp, env⟩, s3v, cp⟩⟩ := s
  unfold check_code_size
  rcases s3v with _ | ⟨db⟩ <;> (try rcases db with _ | b) <;>
  (try simp [hasDeploymentBucket]) <;>
  (try split) <;>
  exact ⟨⟨rfl, rfl, rfl, rfl, rfl, rfl, rfl, rfl, rfl, rfl, fun _ => ⟨rfl, rfl⟩⟩, rfl,
    calls_append_ok (by intro p l hp; simp at hp; exact hp.1)⟩

/-- Every step of create_zip satisfies the per-step guarantee. -/
theorem steps_stepOK (zip : FileMap) :
    ∀ p ∈ packagingSteps zip, ∀ x : PkgState, stepOK x (p.2 x).1 := by
  intro p hp x
  simp only [packagingSteps, restSteps, List.mem_cons, List.not_mem_nil, or_false] at hp
  rcases hp with h | h | h | h | h | h | h <;> subst h
  · exact clean_stepOK x
  · exact download_stepOK zip x
  · exact manage_stepOK x
  · exact add_init_stepOK x
  · exact add_payload_stepOK x
  · exact zip_stepOK x
  · exact check_stepOK x

/-- A property preserved by every step of a list is preserved by running the
list, whether or not a step fails. -/
theorem runSteps_inv (P : PkgState → Prop)
    (steps : List (String × (PkgState → StepResult)))
    (hstep : ∀ p ∈ steps, ∀ s, P s → P (p.2 s).1) :
    ∀ s, P s → P (runSteps steps s).2.1 := by
  induction steps with
  | nil => exact fun s hs => hs
  | cons st rest ih =>
      intro s hs
      rcases hst : st.2 s with ⟨s1, e⟩
      have h1 : P s1 := by
        have h := hstep st (List.mem_cons_self st rest) s hs
        rw [hst] at h
        exact h
      cases e with
      | none =>
          simp only [runSteps, hst]
          exact ih (fun p hp => hstep p (List.mem_cons_of_mem st hp)) s1 h1
      | some err =>
          simp only [runSteps, hst]
          exact h1

/-- A full run of Build satisfies the accumulated per-step guarantee with
respect to the freshly initialised packager state. -/
theorem build_stepOK (zip : FileMap) (s : PkgState) :
    stepOK (initPackager s) (build zip s).1 :=
  runSteps_inv (stepOK (initPackager s)) (packagingSteps zip)
    (fun p hp x hx => stepOK_trans hx (steps_stepOK zip p hp x))
    (initPackager s) (stepOK_refl (initPackager s))

/-- Amended claim C2: Build never removes the per-run working directory on
any exit path; the directory still exists when Build returns, whether the run
succeeded or failed (its removal is left to the temporary-directory object
outside Build, and no caller-facing preserve option exists). -/
theorem c2_workdir_never_removed (zip : FileMap) (s : PkgState) :
    (build zip s).1.workdirExists = true :=
  ((build_stepOK zip s).2.1).trans rfl

/-- Amended claim C3: Build leaves the external filesystem, the
working-directory path and every configuration field other than the
environment map, the image_file attribute and the init_script attribute
unchanged, whether it succeeds or fails; the two path attributes are
unchanged whenever no base config directory is set. -/
theorem c3_only_environment_and_paths_mutated (zip : FileMap) (s : PkgState) :
    framePreserved s (build zip s).1 :=
  (build_stepOK zip s).1

/-- Witness for amended C3 at a concrete configuration. -/
theorem c3_only_environment_and_paths_mutated_witness :
    framePreserved imageFileState (build supervisorZip imageFileState).1 :=
  c3_only_environment_and_paths_mutated supervisorZip imageFileState

/-- Claim C10: every size-validator call of a run of Build receives the
per-run working-directory path (never the output archive path), and the
pass/fail answer of the size-check step does not depend on the archive
present at the output path — the zip artifact itself is never measured. -/
theorem c10_size_gate_on_workdir :
    (∀ zip s p l, ExtCall.validateSize p l ∈ (build zip s).1.calls → p = s.workdirPath) ∧
      (∀ s a, (check_code_size { s with artifact := a }).2 = (check_code_size s).2) := by
  constructor
  · intro zip s p l hp
    rcases (build_stepOK zip s).2.2 p l hp with h | h
    · simp [initPackager] at h
    · exact h
  · intro s a
    unfold check_code_size
    dsimp only
    split <;> split <;> rfl

/-- Witness for C10: the validator call of a concrete successful run carries
the working-directory path of that run. -/
theorem c10_size_gate_on_workdir_witness :
    "wd" = baseState.workdirPath :=
  c10_size_gate_on_workdir.1 supervisorZip baseState "wd" 1000 (by decide)

/-- The handler-fetch step neither touches the artifact nor raises the
size-exceeded error. -/
theorem download_artifact_safe (zip : FileMap) : ArtifactSafe (download_hander_file zip) := by
  intro s
  unfold download_hander_file
  split <;> exact ⟨rfl, rfl⟩

/-- The local image preparation only fails with the missing-source error,
never the size-exceeded error. -/
theorem prepare_not_size (fs : FileMap) (path : String) (wd : FileMap) (e : PkgError)
    (h : prepare_udocker_image fs path wd = Except.error e) : isSizeErr (some e) = false := by
  unfold prepare_udocker_image at h
  rcases hlk : lookupFile fs path with _ | c <;> rw [hlk] at h
  · cases h; rfl
  · cases h

/-- The image-preparation step neither touches the artifact nor raises the
size-exceeded error. -/
theorem manage_artifact_safe : ArtifactSafe manage_udocker_images := by
  intro s
  obtain ⟨fs, wd, we, wp, art, cs, ⟨⟨nm, img, imgf, isc, ep, zp, mp, msp, env⟩, s3v, cp⟩⟩ := s
  unfold manage_udocker_images
  rcases s3v with _ | ⟨db⟩ <;> (try rcases db with _ | b) <;>
  rcases img with _ | ref <;>
  rcases imgf with _ | f <;>
  rcases cp with _ | cp <;>
  (try simp [hasDeploymentBucket, isSizeErr]) <;>
  (try split) <;>
  first
    | exact ⟨rfl, rfl⟩
    | (rename_i e heq
       exact ⟨rfl, prepare_not_size _ _ _ e heq⟩)

/-- The init-script step neither touches the artifact nor raises the
size-exceeded error. -/
theorem add_init_artifact_safe : ArtifactSafe add_init_script := by
  intro s
  obtain ⟨fs, wd, we, wp, art, cs, ⟨⟨nm, img, imgf, isc, ep, zp, mp, msp, env⟩, s3v, cp⟩⟩ := s
  unfold add_init_script
  rcases isc with _ | isc <;>
  rcases cp with _ | cp <;>
  (try dsimp only) <;>
  (try split) <;>
  exact ⟨rfl, rfl⟩

/-- The extra-payload step neither touches the artifact nor raises the
size-exceeded error. -/
theorem add_payload_artifact_safe : ArtifactSafe add_extra_payload := by
  intro s
  obtain ⟨fs, wd, we, wp, art, cs, ⟨⟨nm, img, imgf, isc, ep, zp, mp, msp, env⟩, s3v, cp⟩⟩ := s
  unfold add_extra_payload
  rcases ep with _ | ep <;> exact ⟨rfl, rfl⟩

/-- Running a list of artifact-safe steps leaves the artifact unchanged and
never returns the size-exceeded error. -/
theorem runSteps_artifact_safe (l : List (String × (PkgState → StepResult)))
    (hl : ∀ p ∈ l, ArtifactSafe p.2) (s : PkgState) :
    (runSteps l s).2.1.artifact = s.artifact ∧ isSizeErr (runSteps l s).2.2 = false := by
  induction l generalizing s with
  | nil => exact ⟨rfl, rfl⟩
  | cons st rest ih =>
      rcases hst : st.2 s with ⟨s1, e⟩
      obtain ⟨ha, he⟩ := hl st (List.mem_cons_self st rest) s
      rw [hst] at ha he
      cases e with
      | none =>
          simp only [runSteps, hst]
          obtain ⟨ha2, he2⟩ := ih (fun p hp => hl p (List.mem_cons_of_mem st hp)) s1
          exact ⟨ha2.trans ha, he2⟩
      | some err =>
          simp only [runSteps, hst]
          exact ⟨ha, he⟩

/-- The four steps between clean and zip are artifact safe. -/
theorem frontSteps_artifact_safe (zip : FileMap) :
    ∀ p ∈ frontSteps zip, ArtifactSafe p.2 := by
  intro p hp
  simp only [frontSteps, List.mem_cons, List.not_mem_nil, or_false] at hp
  rcases hp with h | h | h | h <;> subst h
  · exact download_artifact_safe zip
  · exact manage_artifact_safe
  · exact add_init_artifact_safe
  · exact add_payload_artifact_safe

/-- The size-check step does not touch the artifact. -/
theorem check_code_size_artifact (s : PkgState) :
    (check_code_size s).1.artifact = s.artifact := by
  unfold check_code_size
  split <;> split <;> rfl

/-- The size-check step either passes or raises the size-exceeded error. -/
theorem check_code_size_err (s : PkgState) :
    (check_code_size s).2 = none ∨ isSizeErr (check_code_size s).2 = true := by
  unfold check_code_size
  split <;> split <;> first | exact Or.inl rfl | exact Or.inr rfl

/-- The steps after the clean step decompose into the four artifact-safe
steps followed by the zip and size-check steps. -/
theorem restSteps_decomp (zip : FileMap) :
    restSteps zip = frontSteps zip ++
      [("zip_scar_folder", zip_scar_folder), ("check_code_size", check_code_size)] := rfl

/-- Running an appended list runs the first list and, when it did not fail,
continues with the second list from the reached state. -/
theorem runSteps_append_result (l1 l2 : List (String × (PkgState → StepResult)))
    (s : PkgState) :
    (runSteps (l1 ++ l2) s).2 =
      (if (runSteps l1 s).2.2 = none then (runSteps l2 (runSteps l1 s).2.1).2
       else (runSteps l1 s).2) := by
  induction l1 generalizing s with
  | nil => simp [runSteps]
  | cons st rest ih =>
      rcases hst : st.2 s with ⟨s1, e⟩
      cases e with
      | none => simp only [List.cons_append, runSteps, hst]; exact ih s1
      | some err => simp [runSteps, hst]

/-- Build, decomposed past the always-succeeding clean step. -/
theorem build_decomp (zip : FileMap) (s : PkgState) :
    build zip s =
      (runSteps (restSteps zip) { initPackager s with artifact := none }).2 := rfl

/-- Running the single size-check step returns exactly the step's result. -/
theorem runSteps_check (t : PkgState) :
    (runSteps [("check_code_size", check_code_size)] t).2 = check_code_size t := by
  rcases hc : check_code_size t with ⟨s3, e3⟩
  cases e3 <;> simp [runSteps, hc]

/-- Amended claim C8: when a run of Build fails with any error other than the
size-exceeded error, no artifact is present at the output path when Build
returns (the clean step removed any pre-existing archive and the zip step was
never reached); but when the failure is the size check, which runs only after
the archive has been fully written, the archive remains at the output path. -/
theorem c8_artifact_only_on_size_failure (zip : FileMap) (s : PkgState) :
    ((build zip s).2 ≠ none → isSizeErr (build zip s).2 = false →
        (build zip s).1.artifact = none) ∧
      (isSizeErr (build zip s).2 = true → (build zip s).1.artifact.isSome = true) := by
  rw [build_decomp zip s, restSteps_decomp zip,
    runSteps_append_result (frontSteps zip)
      [("zip_scar_folder", zip_scar_folder), ("check_code_size", check_code_size)]
      { initPackager s with artifact := none }]
  obtain ⟨hart, herr⟩ :=
    runSteps_artifact_safe (frontSteps zip) (frontSteps_artifact_safe zip)
      { initPackager s with artifact := none }
  rcases hfe : (runSteps (frontSteps zip) { initPackager s with artifact := none }).2.2
    with _ | err
  · rw [if_pos rfl]
    have hzc : (runSteps
        [("zip_scar_folder", zip_scar_folder), ("check_code_size", check_code_size)]
        ((runSteps (frontSteps zip) { initPackager s with artifact := none }).2.1)).2 =
        check_code_size
          { (runSteps (frontSteps zip) { initPackager s with artifact := none }).2.1 with
            artifact := some ((runSteps (frontSteps zip)
              { initPackager s with artifact := none }).2.1.workdir) } :=
      runSteps_check _
    rw [hzc]
    constructor
    · intro hne hsz
      rcases check_code_size_err _ with h | h
      · exact absurd h hne
      · rw [h] at hsz
        cases hsz
    · intro _
      rw [check_code_size_artifact]
      rfl
  · rw [if_neg (Option.some_ne_none err), hfe]
    rw [hfe] at herr
    constructor
    · intro _ _
      exact hart.trans rfl
    · intro hsz
      exact Bool.noConfusion (herr.symm.trans hsz)

/-- Witness for amended C8: a run failing before the archive step leaves no
artifact at the output path. -/
theorem c8_artifact_only_on_size_failure_witness :
    (build zipNoHandler baseState).1.artifact = none :=
  (c8_artifact_only_on_size_failure zipNoHandler baseState).1 (by decide) (by decide)

/-- Erasing the environment map does not change the artifact field. -/
theorem scrub_artifact (s : PkgState) : (scrub s).artifact = s.artifact := rfl

/-- The handler-fetch step commutes with erasing the environment map. -/
theorem download_scrub (zip : FileMap) : ScrubCommutes (download_hander_file zip) := by
  intro s
  obtain ⟨fs, wd, we, wp, art, cs, ⟨⟨nm, img, imgf, isc, ep, zp, mp, msp, env⟩, s3v, cp⟩⟩ := s
  unfold download_hander_file scrub
  dsimp only
  split <;> exact ⟨rfl, rfl⟩

/-- The image-preparation step commutes with erasing the environment map. -/
theorem manage_scrub : ScrubCommutes manage_udocker_images := by
  intro s
  obtain ⟨fs, wd, we, wp, art, cs, ⟨⟨nm, img, imgf, isc, ep, zp, mp, msp, env⟩, s3v, cp⟩⟩ := s
  unfold manage_udocker_images scrub
  rcases s3v with _ | ⟨db⟩ <;> (try rcases db with _ | b) <;>
  rcases img with _ | ref <;>
  rcases imgf with _ | f <;>
  rcases cp with _ | cp <;>
  (try simp [hasDeploymentBucket]) <;>
  (try split) <;> (try split) <;>
  first
    | exact ⟨rfl, rfl⟩
    | simp

/-- The init-script step commutes with erasing the environment map. -/
theorem add_init_scrub : ScrubCommutes add_init_script := by
  intro s
  obtain ⟨fs, wd, we, wp, art, cs, ⟨⟨nm, img, imgf, isc, ep, zp, mp, msp, env⟩, s3v, cp⟩⟩ := s
  unfold add_init_script scrub
  rcases isc with _ | isc <;>
  rcases cp with _ | cp <;>
  (try dsimp only) <;>
  (try split) <;>
  exact ⟨rfl, rfl⟩

/-- The extra-payload step commutes with erasing the environment map. -/
theorem add_payload_scrub : ScrubCommutes add_extra_payload := by
  intro s
  obtain ⟨fs, wd, we, wp, art, cs, ⟨⟨nm, img, imgf, isc, ep, zp, mp, msp, env⟩, s3v, cp⟩⟩ := s
  unfold add_extra_payload scrub
  rcases ep with _ | ep <;> exact ⟨rfl, rfl⟩

/-- The zip step commutes with erasing the environment map. -/
theorem zip_scrub : ScrubCommutes zip_scar_folder := by
  intro s
  obtain ⟨fs, wd, we, wp, art, cs, ⟨⟨nm, img, imgf, isc, ep, zp, mp, msp, env⟩, s3v, cp⟩⟩ := s
  exact ⟨rfl, rfl⟩

/-- The size-check step commutes with erasing the environment map. -/
theorem check_scrub : ScrubCommutes check_code_size := by
  intro s
  obtain ⟨fs, wd, we, wp, art, cs, ⟨⟨nm, img, imgf, isc, ep, zp, mp, msp, env⟩, s3v, cp⟩⟩ := s
  unfold check_code_size scrub
  rcases s3v with _ | ⟨db⟩ <;> (try rcases db with _ | b) <;>
  (try simp [hasDeploymentBucket]) <;>
  (try split) <;>
  first
    | exact ⟨rfl, rfl⟩
    | simp

/-- All six steps after the clean step commute with erasing the environment
map. -/
theorem restSteps_scrub (zip : FileMap) : ∀ p ∈ restSteps zip, ScrubCommutes p.2 := by
  intro p hp
  simp only [restSteps, List.mem_cons, List.not_mem_nil, or_false] at hp
  rcases hp with h | h | h | h | h | h <;> subst h
  · exact download_scrub zip
  · exact manage_scrub
  · exact add_init_scrub
  · exact add_payload_scrub
  · exact zip_scrub
  · exact check_scrub

/-- Two starting states that agree except on the environment map yield runs
agreeing except on the environment map, with identical error outcomes. -/
theorem runSteps_scrub_congr (l : List (String × (PkgState → StepResult)))
    (hl : ∀ p ∈ l, ScrubCommutes p.2) :
    ∀ s t, scrub s = scrub t →
      scrub (runSteps l s).2.1 = scrub (runSteps l t).2.1 ∧
        (runSteps l s).2.2 = (runSteps l t).2.2 := by
  induction l with
  | nil => exact fun s t h => ⟨h, rfl⟩
  | cons st rest ih =>
      intro s t hst
      obtain ⟨hs1, hs2⟩ := hl st (List.mem_cons_self st rest) s
      obtain ⟨ht1, ht2⟩ := hl st (List.mem_cons_self st rest) t
      have hfeq : st.2 (scrub s) = st.2 (scrub t) := by rw [hst]
      have herr : (st.2 s).2 = (st.2 t).2 := by rw [← hs2, ← ht2, hfeq]
      have hstate : scrub (st.2 s).1 = scrub (st.2 t).1 := by rw [← hs1, ← ht1, hfeq]
      rcases hs : st.2 s with ⟨s1, es⟩
      rcases htt : st.2 t with ⟨t1, et⟩
      rw [hs, htt] at herr hstate
      dsimp only at herr hstate
      cases es with
      | none =>
          cases et with
          | none =>
              simp only [runSteps, hs, htt]
              exact ih (fun p hp => hl p (List.mem_cons_of_mem st hp)) s1 t1 hstate
          | some e => exact Option.noConfusion herr
      | some e =>
          cases et with
          | none => exact Option.noConfusion herr
          | some e2 =>
              simp only [runSteps, hs, htt]
              injection herr with h
              subst h
              exact ⟨hstate, rfl⟩

/-- Two configurations agreeing on every field except the environment map
give equal freshly initialised, cleaned states after erasing the environment
map. -/
theorem scrub_postClean_eq {s s1 : PkgState}
    (hfs : s1.fs = s.fs) (hwp : s1.workdirPath = s.workdirPath)
    (hs3 : s1.aws.s3 = s.aws.s3) (hcp : s1.aws.config_path = s.aws.config_path)
    (hnm : s1.aws.lambdaf.name = s.aws.lambdaf.name)
    (himg : s1.aws.lambdaf.image = s.aws.lambdaf.image)
    (himgf : s1.aws.lambdaf.image_file = s.aws.lambdaf.image_file)
    (hisc : s1.aws.lambdaf.init_script = s.aws.lambdaf.init_script)
    (hep : s1.aws.lambdaf.extra_payload = s.aws.lambdaf.extra_payload)
    (hzp : s1.aws.lambdaf.zip_file_path = s.aws.lambdaf.zip_file_path)
    (hmp : s1.aws.lambdaf.max_payload_size = s.aws.lambdaf.max_payload_size)
    (hmsp : s1.aws.lambdaf.max_s3_payload_size = s.aws.lambdaf.max_s3_payload_size) :
    scrub { initPackager s1 with artifact := none } =
      scrub { initPackager s with artifact := none } := by
  obtain ⟨fs, wd, we, wp, art, cs, ⟨⟨nm, img, imgf, isc, ep, zp, mp, msp, env⟩, s3v, cp⟩⟩ := s
  obtain ⟨fs1, wd1, we1, wp1, art1, cs1,
    ⟨⟨nm1, img1, imgf1, isc1, ep1, zp1, mp1, msp1, env1⟩, s3v1, cp1⟩⟩ := s1
  dsimp only at hfs hwp hs3 hcp hnm himg himgf hisc hep hzp hmp hmsp
  subst hfs hwp hs3 hcp hnm himg himgf hisc hep hzp hmp hmsp
  rfl

/-- The handler-fetch step never writes the image_file attribute. -/
theorem download_image_file_eq (zip : FileMap) (x : PkgState) :
    (download_hander_file zip x).1.aws.lambdaf.image_file = x.aws.lambdaf.image_file := by
  unfold download_hander_file
  split <;> rfl

/-- The handler-fetch step never writes the init_script attribute. -/
theorem download_init_script_eq (zip : FileMap) (x : PkgState) :
    (download_hander_file zip x).1.aws.lambdaf.init_script = x.aws.lambdaf.init_script := by
  unfold download_hander_file
  split <;> rfl

/-- The image-preparation step never writes the init_script attribute. -/
theorem manage_init_script_eq (x : PkgState) :
    (manage_udocker_images x).1.aws.lambdaf.init_script = x.aws.lambdaf.init_script := by
  obtain ⟨fs, wd, we, wp, art, cs, ⟨⟨nm, img, imgf, isc, ep, zp, mp, msp, env⟩, s3v, cp⟩⟩ := x
  unfold manage_udocker_images
  rcases s3v with _ | ⟨db⟩ <;> (try rcases db with _ | b) <;>
  rcases img with _ | ref <;>
  rcases imgf with _ | f <;>
  rcases cp with _ | cp <;>
  (try simp [hasDeploymentBucket]) <;>
  (try split) <;>
  first | rfl | simp

/-- With no image_file attribute present, the image-preparation step leaves
the attribute absent. -/
theorem manage_image_file_none (x : PkgState) (hx : x.aws.lambdaf.image_file = none) :
    (manage_udocker_images x).1.aws.lambdaf.image_file = none := by
  obtain ⟨fs, wd, we, wp, art, cs, ⟨⟨nm, img, imgf, isc, ep, zp, mp, msp, env⟩, s3v, cp⟩⟩ := x
  dsimp only at hx
  subst hx
  unfold manage_udocker_images
  rcases s3v with _ | ⟨db⟩ <;> (try rcases db with _ | b) <;>
  rcases img with _ | ref <;>
  rcases cp with _ | cp <;>
  (try simp [hasDeploymentBucket]) <;>
  first | rfl | simp

/-- The init-script step never writes the image_file attribute. -/
theorem add_init_image_file_eq (x : PkgState) :
    (add_init_script x).1.aws.lambdaf.image_file = x.aws.lambdaf.image_file := by
  obtain ⟨fs, wd, we, wp, art, cs, ⟨⟨nm, img, imgf, isc, ep, zp, mp, msp, env⟩, s3v, cp⟩⟩ := x
  unfold add_init_script
  rcases isc with _ | isc <;>
  rcases cp with _ | cp <;>
  (try dsimp only) <;>
  (try split) <;>
  rfl

/-- With no init_script attribute present, the init-script step is the
identity and raises nothing. -/
theorem add_init_script_none (x : PkgState) (hx : x.aws.lambdaf.init_script = none) :
    add_init_script x = (x, none) := by
  unfold add_init_script
  rw [hx]

/-- The extra-payload step never writes the image_file attribute. -/
theorem add_payload_image_file_eq (x : PkgState) :
    (add_extra_payload x).1.aws.lambdaf.image_file = x.aws.lambdaf.image_file := by
  obtain ⟨fs, wd, we, wp, art, cs, ⟨⟨nm, img, imgf, isc, ep, zp, mp, msp, env⟩, s3v, cp⟩⟩ := x
  unfold add_extra_payload
  rcases ep with _ | ep <;> rfl

/-- The extra-payload step never writes the init_script attribute. -/
theorem add_payload_init_script_eq (x : PkgState) :
    (add_extra_payload x).1.aws.lambdaf.init_script = x.aws.lambdaf.init_script := by
  obtain ⟨fs, wd, we, wp, art, cs, ⟨⟨nm, img, imgf, isc, ep, zp, mp, msp, env⟩, s3v, cp⟩⟩ := x
  unfold add_extra_payload
  rcases ep with _ | ep <;> rfl

/-- The size-check step never writes the image_file attribute. -/
theorem check_image_file_eq (x : PkgState) :
    (check_code_size x).1.aws.lambdaf.image_file = x.aws.lambdaf.image_file := by
  unfold check_code_size
  split <;> split <;> rfl

/-- The size-check step never writes the init_script attribute. -/
theorem check_init_script_eq (x : PkgState) :
    (check_code_size x).1.aws.lambdaf.init_script = x.aws.lambdaf.init_script := by
  unfold check_code_size
  split <;> split <;> rfl

/-- Every step of create_zip keeps an absent image_file attribute absent. -/
theorem steps_image_file_none (zip : FileMap) :
    ∀ p ∈ packagingSteps zip, ∀ x : PkgState,
      x.aws.lambdaf.image_file = none → (p.2 x).1.aws.lambdaf.image_file = none := by
  intro p hp x hx
  simp only [packagingSteps, restSteps, List.mem_cons, List.not_mem_nil, or_false] at hp
  rcases hp with h | h | h | h | h | h | h <;> subst h
  · exact hx
  · rw [download_image_file_eq]; exact hx
  · exact manage_image_file_none x hx
  · rw [add_init_image_file_eq]; exact hx
  · rw [add_payload_image_file_eq]; exact hx
  · exact hx
  · rw [check_image_file_eq]; exact hx

/-- Every step of create_zip keeps an absent init_script attribute absent. -/
theorem steps_init_script_none (zip : FileMap) :
    ∀ p ∈ packagingSteps zip, ∀ x : PkgState,
      x.aws.lambdaf.init_script = none → (p.2 x).1.aws.lambdaf.init_script = none := by
  intro p hp x hx
  simp only [packagingSteps, restSteps, List.mem_cons, List.not_mem_nil, or_false] at hp
  rcases hp with h | h | h | h | h | h | h <;> subst h
  · exact hx
  · rw [download_init_script_eq]; exact hx
  · rw [manage_init_script_eq]; exact hx
  · show (add_init_script x).1.aws.lambdaf.init_script = none
    rw [add_init_script_none x hx]
    exact hx
  · rw [add_payload_init_script_eq]; exact hx
  · exact hx
  · rw [check_init_script_eq]; exact hx

/-- A run of Build keeps an absent image_file attribute absent. -/
theorem build_image_file_none (zip : FileMap) (s : PkgState)
    (h : s.aws.lambdaf.image_file = none) :
    (build zip s).1.aws.lambdaf.image_file = none :=
  runSteps_inv (fun x => x.aws.lambdaf.image_file = none) (packagingSteps zip)
    (steps_image_file_none zip) (initPackager s) h

/-- A run of Build keeps an absent init_script attribute absent. -/
theorem build_init_script_none (zip : FileMap) (s : PkgState)
    (h : s.aws.lambdaf.init_script = none) :
    (build zip s).1.aws.lambdaf.init_script = none :=
  runSteps_inv (fun x => x.aws.lambdaf.init_script = none) (packagingSteps zip)
    (steps_init_script_none zip) (initPackager s) h

/-- With an init_script attribute present, the init-script step always
raises (source line 99 subscripts the bound method environment.get). -/
theorem add_init_script_fails (x : PkgState) (isc : String)
    (h : x.aws.lambdaf.init_script = some isc) :
    (add_init_script x).2 ≠ none := by
  unfold add_init_script
  rw [h]
  dsimp only
  split <;> split <;> simp

/-- The steps after the clean step decompose into the fetch and image steps
followed by the last four steps. -/
theorem restSteps_decomp_front2 (zip : FileMap) :
    restSteps zip =
      [("download_hander_file", download_hander_file zip),
       ("manage_udocker_images", manage_udocker_images)] ++
      [("add_init_script", add_init_script),
       ("add_extra_payload", add_extra_payload),
       ("zip_scar_folder", zip_scar_folder),
       ("check_code_size", check_code_size)] := rfl

/-- With an init_script attribute present, every run of Build fails: the
init-script step is reached only along error-free prefixes and then raises. -/
theorem build_err_of_init_script (zip : FileMap) (s : PkgState) (isc : String)
    (hisc : s.aws.lambdaf.init_script = some isc) :
    (build zip s).2 ≠ none := by
  rw [build_decomp zip s, restSteps_decomp_front2 zip,
    runSteps_append_result [("download_hander_file", download_hander_file zip),
      ("manage_udocker_images", manage_udocker_images)]
      [("add_init_script", add_init_script), ("add_extra_payload", add_extra_payload),
       ("zip_scar_folder", zip_scar_folder), ("check_code_size", check_code_size)]
      { initPackager s with artifact := none }]
  rcases hfe : (runSteps [("download_hander_file", download_hander_file zip),
      ("manage_udocker_images", manage_udocker_images)]
      { initPackager s with artifact := none }).2.2 with _ | err
  · rw [if_pos rfl]
    set T0 := (runSteps [("download_hander_file", download_hander_file zip),
        ("manage_udocker_images", manage_udocker_images)]
        { initPackager s with artifact := none }).2.1 with hT0
    have hT : T0.aws.lambdaf.init_script = some isc := by
      rw [hT0]
      refine runSteps_inv (fun x => x.aws.lambdaf.init_script = some isc) _ ?_ _ hisc
      intro p hp x hx
      simp only [List.mem_cons, List.not_mem_nil, or_false] at hp
      rcases hp with h | h <;> subst h
      · rw [download_init_script_eq]; exact hx
      · rw [manage_init_script_eq]; exact hx
    rcases hi : add_init_script T0 with ⟨t2, e2⟩
    cases e2 with
    | none =>
        have hfail := add_init_script_fails T0 isc hT
        rw [hi] at hfail
        exact absurd rfl hfail
    | some err2 =>
        simp [runSteps, hi]
  · rw [if_neg (Option.some_ne_none err), hfe]
    simp

/-- A run of Build that succeeds had no init_script attribute set. -/
theorem init_script_none_of_success (zip : FileMap) (s s1 : PkgState)
    (h1 : build zip s = (s1, none)) : s.aws.lambdaf.init_script = none := by
  rcases hisc : s.aws.lambdaf.init_script with _ | isc
  · rfl
  · exact absurd (by rw [h1] : (build zip s).2 = none)
      (build_err_of_init_script zip s isc hisc)

/-- Amended claim C9: Build is idempotent at the output path whenever the
first run performs no in-place path re-resolution: when no base config
directory is set, or when no local image-archive path is configured (a
successful first run already forces the init-script path to be absent).
Then a second run over the same (possibly environment-mutated) configuration
with the first artifact still present also succeeds and overwrites the
artifact with contents equal to the first run's archive.  Only a base config
directory set together with a local image-archive path breaks the claim. -/
theorem c9_idempotent_without_reresolution (zip : FileMap) (s s1 : PkgState)
    (hcases : s.aws.config_path = none ∨ s.aws.lambdaf.image_file = none)
    (h1 : build zip s = (s1, none)) :
    (build zip s1).2 = none ∧ (build zip s1).1.artifact = s1.artifact := by
  have hs1 : s1 = (build zip s).1 := by rw [h1]
  obtain ⟨hfs, hwp, hs3, hcp2, hnm, himg, hep, hzp, hmp, hmsp, hcond⟩ := (build_stepOK zip s).1
  have hpaths : (build zip s).1.aws.lambdaf.image_file = s.aws.lambdaf.image_file ∧
      (build zip s).1.aws.lambdaf.init_script = s.aws.lambdaf.init_script := by
    rcases hcases with hcp | himgf
    · exact hcond hcp
    · constructor
      · rw [himgf]
        exact build_image_file_none zip s himgf
      · have hn := init_script_none_of_success zip s s1 h1
        rw [hn]
        exact build_init_script_none zip s hn
  have hscrub : scrub { initPackager s1 with artifact := none } =
      scrub { initPackager s with artifact := none } := by
    rw [hs1]
    exact scrub_postClean_eq hfs hwp hs3 hcp2 hnm himg hpaths.1 hpaths.2 hep hzp hmp hmsp
  have hcong := runSteps_scrub_congr (restSteps zip) (restSteps_scrub zip)
    { initPackager s1 with artifact := none } { initPackager s with artifact := none } hscrub
  have hb1 : build zip s =
      (runSteps (restSteps zip) { initPackager s with artifact := none }).2 := rfl
  have hb2 : build zip s1 =
      (runSteps (restSteps zip) { initPackager s1 with artifact := none }).2 := rfl
  constructor
  · rw [hb2, hcong.2, ← hb1, h1]
  · have ha := congrArg PkgState.artifact hcong.1
    rw [scrub_artifact, scrub_artifact] at ha
    rw [hb2, ha, ← hb1, ← hs1]

/-- Witness for amended C9, exercising the newly covered region: a
configuration with a base config directory but no local image archive is
idempotent — the second run succeeds and reproduces the first archive. -/
theorem c9_idempotent_without_reresolution_witness :
    (build supervisorZip (build supervisorZip configDirState).1).2 = none ∧
      (build supervisorZip (build supervisorZip configDirState).1).1.artifact =
        (build supervisorZip configDirState).1.artifact :=
  c9_idempotent_without_reresolution supervisorZip configDirState
    (build supervisorZip configDirState).1 (Or.inr rfl) (by decide)

/-- Witness for amended C2 at a concrete successful run. -/
theorem c2_workdir_never_removed_witness :
    (build supervisorZip baseState).1.workdirExists = true :=
  c2_workdir_never_removed supervisorZip baseState
